import Mathlib

/-!
Verification of the remote worker runtime (`xdist/remote.py`).

The file gives a shallow embedding of the worker's core operations:
the work queue and the steal coordinator (`WorkerInteractor.steal`),
the main execution loop (`pytest_runtestloop` / `run_one_test`),
the deferred-next resolver (`DummyNext`), warning serialization
(`serialize_warning_message`), the log relay (`RemoteMessageHandler.emit`)
and the per-item report hook (`pytest_runtest_logreport`), and proves the
specified properties about them.

The main loop's failure path is modelled faithfully: the handler's
`pickle.dumps(sys.exc_info())` always raises `TypeError` on the live
traceback object, so a caught engine failure aborts the loop instead of
being contained (see the main-loop section).
-/

namespace XdistRemote

/-- A value held by the work queue: either a work-item index (a Python int)
or the unique shutdown sentinel `WorkerInteractor.SHUTDOWN_MARK` (a fresh
`object()` compared by identity, never equal to any int). -/
inductive QVal
  | idx (n : Nat)
  | shutdown
deriving DecidableEq, Repr

/-- Serialized exception information, standing for
`pickle.dumps(sys.exc_info())`: type name and message of the exception. -/
structure ExnInfo where
  exnType : String
  exnValue : String
deriving DecidableEq, Repr

/-- A payload value inside a testreport data mapping. -/
inductive PVal
  | pstr (s : String)
  | pnat (n : Nat)
deriving DecidableEq, Repr

/-- Events sent worker → controller by the code paths modelled here
(`sendevent(name, **kwargs)`).  The `exception` event exists in the
protocol, but the only code that would send it first pickles
`sys.exc_info()`, which always fails on the traceback object, so it is
never actually emitted (see the main-loop section). -/
inductive Event
  | unscheduled (indices : List QVal)
  | exception (payload : String)
  | runtest_protocol_complete (item_index : Nat) (duration : Int)
  | runtest_need_work
  | testreport (data : List (String × PVal))
deriving DecidableEq, Repr

/-! ## Work queue and the steal coordinator

`WorkerInteractor.steal(indices)` turns `indices` into a set, swaps
`self.torun` for a fresh queue, drains the old queue without blocking,
keeps every drained value not in the set (re-enqueued in drain order),
accumulates the ones in the set as `stolen`, and finally sends a single
`unscheduled` event carrying `stolen`.  Queue values are ints or the
sentinel object, never `None`, so the `iter(..., None)` drain runs the
old queue to completion. -/

/-- Membership test `i in indices` performed by `steal`: `indices` is a set
of Python ints, so the sentinel object is never a member. -/
def qvalIn (s : List Nat) : QVal → Bool
  | QVal.idx n => s.contains n
  | QVal.shutdown => false

/-- The drain loop of `steal`: returns `(stolen, kept)` in drain order. -/
def stealDrain (s : List Nat) : List QVal → List QVal × List QVal
  | [] => ([], [])
  | v :: rest =>
    let r := stealDrain s rest
    if qvalIn s v then (v :: r.1, r.2) else (r.1, v :: r.2)

/-- The queue state of a `WorkerInteractor`: the contents of `self.torun`
in FIFO order. -/
structure InteractorQueueState where
  torun : List QVal
deriving DecidableEq, Repr

/-- Embedding of `WorkerInteractor.steal`: the old queue is replaced by the
fresh queue holding the kept values, and one `unscheduled` event is sent
with the stolen values. -/
def steal (indices : List Nat) (st : InteractorQueueState) :
    InteractorQueueState × List Event :=
  let r := stealDrain indices st.torun
  ({ torun := r.2 }, [Event.unscheduled r.1])

theorem stealDrain_eq_filter (s : List Nat) (q : List QVal) :
    stealDrain s q = (q.filter (qvalIn s), q.filter (fun v => !(qvalIn s v))) := by
  induction q with
  | nil => rfl
  | cons v rest ih =>
    by_cases h : qvalIn s v = true
    · simp [stealDrain, ih, h, List.filter_cons]
    · simp only [Bool.not_eq_true] at h
      simp [stealDrain, ih, h, List.filter_cons]

theorem mem_filter_qvalIn (s : List Nat) (q : List QVal) (n : Nat) :
    QVal.idx n ∈ q.filter (qvalIn s) ↔ n ∈ s ∧ QVal.idx n ∈ q := by
  rw [List.mem_filter]
  constructor
  · rintro ⟨hm, hq⟩
    refine ⟨?_, hm⟩
    simpa [qvalIn, List.contains_iff_exists_mem_beq, beq_iff_eq] using hq
  · rintro ⟨hs, hm⟩
    refine ⟨hm, ?_⟩
    simpa [qvalIn, List.contains_iff_exists_mem_beq, beq_iff_eq] using hs

/-- Claim C1: executing a `Steal{S}` command replaces the queue with a fresh
one holding exactly the drained values outside `S` in their original
relative order, removes from execution exactly the drained values in `S`,
and emits exactly one `unscheduled` event whose indices are exactly the
members of `S` that were pending at drain time (not `S` itself). -/
theorem steal_spec (S : List Nat) (st : InteractorQueueState) :
    (steal S st).1.torun = st.torun.filter (fun v => !(qvalIn S v)) ∧
    (steal S st).2 = [Event.unscheduled (st.torun.filter (qvalIn S))] ∧
    (∀ n : Nat, QVal.idx n ∈ st.torun.filter (qvalIn S) ↔
      n ∈ S ∧ QVal.idx n ∈ st.torun) := by
  refine ⟨?_, ?_, fun n => mem_filter_qvalIn S st.torun n⟩
  · simp [steal, stealDrain_eq_filter]
  · simp [steal, stealDrain_eq_filter]

/-! ## Main loop

`pytest_runtestloop` performs one blocking dequeue to obtain the first
index, then runs `run_one_test` until the dequeued value is the shutdown
sentinel.  `run_one_test` reads the clock (`start = time.time()`),
invokes the engine (`pytest_runtest_protocol`) inside `try`, and catches
any `BaseException`.  The handler then evaluates
`pickle.dumps(sys.exc_info())` to build the `exception` event — but
inside an except block `sys.exc_info()` carries the live traceback
object, which the standard `pickle` module cannot serialize (the same
file clears `record.exc_info` before pickling a log record for exactly
this reason), so that call raises `TypeError`.  An exception raised
inside a handler body is not caught by that handler, and neither
`run_one_test` nor `pytest_runtestloop` has an enclosing `try`, so on a
caught engine failure the worker sends no `exception` event, never
reaches the second clock read, sends no `runtest_protocol_complete`, and
the `TypeError` propagates out of the loop.  On the success path the
second clock read, the `runtest_protocol_complete` event and the
`DummyNext` resolution (`runtest_need_work` event plus the next blocking
dequeue) follow.

The embedding records the observable steps as a trace of actions.  The
engine invocation is opaque (`engineRun`); its result for the k-th
invocation is given by an ambient `outcome` function, and the k-th
invocation's clock reads return `clock (2*k)` and `clock (2*k+1)`.
A `none` result models the loop blocking forever on an empty queue. -/

/-- The result of one engine invocation: normal return, or a raised
failure (caught at `BaseException` level by `run_one_test`). -/
inductive Outcome
  | ok
  | raises (e : ExnInfo)
deriving DecidableEq, Repr

/-- One observable step of the main loop. -/
inductive Action
  | clockRead (t : Int)
  | engineRun (i : Nat)
  | emit (ev : Event)
  | dequeue (v : QVal)
deriving DecidableEq, Repr

/-- The failure raised by `pickle.dumps(sys.exc_info())` in the handler of
`run_one_test`: the standard `pickle` module cannot serialize the live
traceback object held by `sys.exc_info()`. -/
def pickleExcInfoError : ExnInfo :=
  ⟨"TypeError", "cannot pickle traceback object"⟩

/-- The trace of one `run_one_test` call whose engine invocation returns
normally: first clock read, engine invocation, second clock read, the
`runtest_protocol_complete` event with `duration = t2 - t1`, then the
`DummyNext` resolution (`runtest_need_work` event followed by the
blocking dequeue of `nextv`). -/
def runOneTraceOk (i : Nat) (t1 t2 : Int) (nextv : QVal) : List Action :=
  [Action.clockRead t1, Action.engineRun i, Action.clockRead t2,
   Action.emit (Event.runtest_protocol_complete i (t2 - t1)),
   Action.emit Event.runtest_need_work, Action.dequeue nextv]

/-- The trace of one `run_one_test` call whose engine invocation raises:
first clock read and engine invocation only — the handler's
`pickle.dumps(sys.exc_info())` raises `TypeError` before `sendevent`
runs, so no event is emitted and the second clock read is never
reached. -/
def runOneTraceRaise (i : Nat) (t1 : Int) : List Action :=
  [Action.clockRead t1, Action.engineRun i]

/-- How control leaves the main loop: a normal return (the sentinel was
dequeued) or an uncaught exception propagating out of the loop. -/
inductive LoopExit
  | returns
  | raises (e : ExnInfo)
deriving DecidableEq, Repr

/-- The `while self.nextitem_index is not self.SHUTDOWN_MARK` loop, given
the current dequeued value, the stream of values later dequeues will
return, and the number `k` of engine invocations performed so far.  A
raising invocation ends the loop at once with the propagating
`TypeError` from the failed pickling. -/
def runLoop (oc : Nat → Outcome) (ck : Nat → Int) :
    QVal → List QVal → Nat → Option (List Action × LoopExit)
  | QVal.shutdown, _, _ => some ([], LoopExit.returns)
  | QVal.idx i, rest, k =>
    match oc k with
    | Outcome.raises _ =>
      some (runOneTraceRaise i (ck (2 * k)), LoopExit.raises pickleExcInfoError)
    | Outcome.ok =>
      match rest with
      | [] => none
      | v :: rest' =>
        (runLoop oc ck v rest' (k + 1)).map
          (fun r => (runOneTraceOk i (ck (2 * k)) (ck (2 * k + 1)) v ++ r.1, r.2))

/-- Embedding of `WorkerInteractor.pytest_runtestloop`: the first blocking
dequeue followed by the loop.  `stream` is the sequence of values the
queue yields to successive dequeues; `none` means the loop blocks forever
waiting on the queue. -/
def pytest_runtestloop (oc : Nat → Outcome) (ck : Nat → Int)
    (stream : List QVal) : Option (List Action × LoopExit) :=
  match stream with
  | [] => none
  | v :: rest =>
    (runLoop oc ck v rest 0).map (fun r => (Action.dequeue v :: r.1, r.2))

/-- The `runtest_protocol_complete` events of a trace, in order, as
`(item_index, duration)` pairs. -/
def completeEvents (tr : List Action) : List (Nat × Int) :=
  tr.filterMap fun a =>
    match a with
    | Action.emit (Event.runtest_protocol_complete i d) => some (i, d)
    | _ => none

/-- The `exception` events of a trace, in order. -/
def exceptionEvents (tr : List Action) : List String :=
  tr.filterMap fun a =>
    match a with
    | Action.emit (Event.exception p) => some p
    | _ => none

/-- The engine invocations of a trace, in order (the executed items). -/
def engineRuns (tr : List Action) : List Nat :=
  tr.filterMap fun a =>
    match a with
    | Action.engineRun i => some i
    | _ => none

/-- Claim C2: the code contradicts the claimed loop contract.  With the
shutdown sentinel pending right behind item 0, an engine failure on
item 0 makes the loop exit by propagating the `TypeError` from
`pickle.dumps(sys.exc_info())`: control leaves the loop although the
sentinel was never dequeued, and the executed item gets no
`runtest_protocol_complete` event. -/
theorem runtestloop_abort_on_failure :
    pytest_runtestloop (fun _ => Outcome.raises ⟨"RuntimeError", "boom"⟩)
      (fun _ => 0) [QVal.idx 0, QVal.shutdown] =
      some ([Action.dequeue (QVal.idx 0), Action.clockRead 0,
             Action.engineRun 0], LoopExit.raises pickleExcInfoError) ∧
    completeEvents [Action.dequeue (QVal.idx 0), Action.clockRead 0,
      Action.engineRun 0] = [] ∧
    Action.dequeue QVal.shutdown ∉
      [Action.dequeue (QVal.idx 0), Action.clockRead 0, Action.engineRun 0] := by
  refine ⟨rfl, rfl, ?_⟩
  decide

/-- Claim C3: the code contradicts the claimed failure containment.  When
item 0 raises, the handler's `pickle.dumps(sys.exc_info())` raises
`TypeError` on the traceback object, so no `exception` event is sent, no
`runtest_protocol_complete` is sent, and the pending item 1 is never
executed: the loop terminates instead of continuing. -/
theorem failure_not_contained :
    pytest_runtestloop
      (fun _ => Outcome.raises ⟨"KeyboardInterrupt", "interrupt"⟩)
      (fun _ => 0) [QVal.idx 0, QVal.idx 1, QVal.shutdown] =
      some ([Action.dequeue (QVal.idx 0), Action.clockRead 0,
             Action.engineRun 0], LoopExit.raises pickleExcInfoError) ∧
    exceptionEvents [Action.dequeue (QVal.idx 0), Action.clockRead 0,
      Action.engineRun 0] = [] ∧
    completeEvents [Action.dequeue (QVal.idx 0), Action.clockRead 0,
      Action.engineRun 0] = [] ∧
    engineRuns [Action.dequeue (QVal.idx 0), Action.clockRead 0,
      Action.engineRun 0] = [0] :=
  ⟨rfl, rfl, rfl, rfl⟩

/-! ## Duration measurement (claim C8)

`run_one_test` reads the clock (`start = time.time()`), invokes the
engine inside `try`, and computes `duration = time.time() - start` after
the handler.  A duration is only ever reported on the success path, and
there the segment between the two clock reads holds the engine
invocation alone; on a caught failure no event at all is emitted and the
second clock read is never reached. -/

/-- Whether an action is a clock read. -/
def isClockRead : Action → Bool
  | Action.clockRead _ => true
  | _ => false

/-- Whether an action is an event emission. -/
def isEmit : Action → Bool
  | Action.emit _ => true
  | _ => false

/-- The actions lying strictly between the first clock read of a trace and
the following clock read: the work charged to the reported duration. -/
def segmentBetweenReads (tr : List Action) : List Action :=
  ((tr.dropWhile (fun a => !(isClockRead a))).drop 1).takeWhile
    (fun a => !(isClockRead a))

/-- Claim C8: every reported duration is the difference of the two clock
reads delimiting the engine invocation, and no event emission occurs
between those reads: the success path has the engine invocation alone
inside the measured interval, and the failure path emits nothing at all
(in particular no `exception` event) and reports no duration. -/
theorem duration_excludes_emission (i : Nat) (t1 t2 : Int) (v : QVal) :
    segmentBetweenReads (runOneTraceOk i t1 t2 v) = [Action.engineRun i] ∧
    completeEvents (runOneTraceOk i t1 t2 v) = [(i, t2 - t1)] ∧
    completeEvents (runOneTraceRaise i t1) = [] ∧
    (runOneTraceRaise i t1).all (fun a => !(isEmit a)) = true :=
  ⟨rfl, rfl, rfl, rfl⟩

theorem runLoop_allOk_returns (ck : Nat → Int) :
    ∀ (rest : List QVal) (v : QVal) (k : Nat),
      QVal.shutdown ∈ v :: rest →
      ∃ tr, runLoop (fun _ => Outcome.ok) ck v rest k =
        some (tr, LoopExit.returns) := by
  intro rest
  induction rest with
  | nil =>
    intro v k h
    cases v with
    | shutdown => exact ⟨[], rfl⟩
    | idx i => simp at h
  | cons w rest ih =>
    intro v k h
    cases v with
    | shutdown => exact ⟨[], rfl⟩
    | idx i =>
      have hw : QVal.shutdown ∈ w :: rest := by
        rcases List.mem_cons.mp h with h1 | h1
        · exact QVal.noConfusion h1
        · exact h1
      obtain ⟨tr, htr⟩ := ih w (k + 1) hw
      refine ⟨runOneTraceOk i (ck (2 * k)) (ck (2 * k + 1)) w ++ tr, ?_⟩
      simp [runLoop, htr]

theorem runtestloop_allOk_returns (ck : Nat → Int) (stream : List QVal)
    (h : QVal.shutdown ∈ stream) :
    ∃ tr, pytest_runtestloop (fun _ => Outcome.ok) ck stream =
      some (tr, LoopExit.returns) := by
  cases stream with
  | nil => simp at h
  | cons v rest =>
    obtain ⟨tr, htr⟩ := runLoop_allOk_returns ck rest v 0 h
    exact ⟨Action.dequeue v :: tr, by simp [pytest_runtestloop, htr]⟩

/-- Claim C9: a steal never removes the shutdown sentinel.  The sentinel is
compared against the requested set of integer indices and is never a
member, so it is re-enqueued into the fresh queue, and on the post-steal
queue the main loop — given failure-free engine invocations — still
terminates by dequeuing the sentinel. -/
theorem steal_preserves_shutdown (S : List Nat) (st : InteractorQueueState)
    (h : QVal.shutdown ∈ st.torun) :
    QVal.shutdown ∈ (steal S st).1.torun ∧
    ∀ ck : Nat → Int, ∃ tr,
      pytest_runtestloop (fun _ => Outcome.ok) ck (steal S st).1.torun =
        some (tr, LoopExit.returns) := by
  have hmem : QVal.shutdown ∈ (steal S st).1.torun := by
    simp only [steal, stealDrain_eq_filter]
    rw [List.mem_filter]
    exact ⟨h, rfl⟩
  exact ⟨hmem, fun ck => runtestloop_allOk_returns ck _ hmem⟩

/-- Witness for claim C9: stealing `{1, 3}` from a queue holding the
sentinel between pending indices keeps the sentinel. -/
theorem steal_preserves_shutdown_witness :
    QVal.shutdown ∈
      (steal [1, 3] ⟨[QVal.idx 1, QVal.shutdown, QVal.idx 2]⟩).1.torun ∧
    ∀ ck : Nat → Int, ∃ tr,
      pytest_runtestloop (fun _ => Outcome.ok) ck
          (steal [1, 3] ⟨[QVal.idx 1, QVal.shutdown, QVal.idx 2]⟩).1.torun =
        some (tr, LoopExit.returns) :=
  steal_preserves_shutdown [1, 3] ⟨[QVal.idx 1, QVal.shutdown, QVal.idx 2]⟩
    (by decide)

/-! ## Deferred-next resolver (`DummyNext`)

A `DummyNext` starts with `real_next = None` and `nextitem_index = None`.
`_fetch` does nothing when `nextitem_index` is already set; otherwise it
sends one `runtest_need_work` event and then blocks on
`get_more_work` (`self.torun.get()`), caching the resolved
`(item, index)` pair.  Both `listchain` and `_next_index` call `_fetch`
and read the cached pair.  Queue values are valid indices or the
sentinel, and resolved values are never equal to `None`, so the
`if self.nextitem_index == None` guard fires only on the first call. -/

/-- The state of one `DummyNext` instance together with the queue values
later dequeues will yield, the events the instance has sent, and the
values it has dequeued.  `blocked = true` models a `get_more_work` call
waiting forever on an empty queue. -/
structure DummySt where
  real_next : Option Nat
  nextitem_index : Option QVal
  pendingStream : List QVal
  events : List Event
  taken : List QVal
  blocked : Bool
deriving DecidableEq, Repr

/-- A fresh `DummyNext(parent)` over a queue that will yield `stream`. -/
def freshDummy (stream : List QVal) : DummySt :=
  { real_next := none, nextitem_index := none, pendingStream := stream,
    events := [], taken := [], blocked := false }

/-- Embedding of `DummyNext._fetch`: on the first call send
`runtest_need_work` and block-dequeue the next value via `get_more_work`
(which resolves `real_next` to the session item for an index and to `None`
for the sentinel); on any later call return the cached result untouched. -/
def dummyFetch (s : DummySt) : DummySt :=
  if s.blocked then s
  else
    match s.nextitem_index with
    | some _ => s
    | none =>
      let s1 : DummySt := { s with events := s.events ++ [Event.runtest_need_work] }
      match s1.pendingStream with
      | [] => { s1 with blocked := true }
      | QVal.shutdown :: rest =>
        { s1 with real_next := none, nextitem_index := some QVal.shutdown,
                  pendingStream := rest, taken := s1.taken ++ [QVal.shutdown] }
      | QVal.idx i :: rest =>
        { s1 with real_next := some i, nextitem_index := some (QVal.idx i),
                  pendingStream := rest, taken := s1.taken ++ [QVal.idx i] }

/-- Embedding of `DummyNext._next_index`: fetch, then return the cached
resolved index. -/
def dummyNextIndex (s : DummySt) : DummySt × Option QVal :=
  let s' := dummyFetch s
  (s', s'.nextitem_index)

/-- Embedding of `DummyNext.listchain`: fetch, then return the cached
item's chain, or the empty chain when the resolved value is the sentinel. -/
def dummyListchain (chains : Nat → List String) (s : DummySt) :
    DummySt × List String :=
  let s' := dummyFetch s
  (s', match s'.real_next with
       | some i => chains i
       | none => [])

/-- A call made to a `DummyNext` instance: either of the two operations;
both have the same effect on the instance's state. -/
inductive Call
  | listchain
  | nextIndex
deriving DecidableEq, Repr

/-- Run a sequence of calls against a `DummyNext` state. -/
def runCalls (s : DummySt) : List Call → DummySt
  | [] => s
  | _ :: rest => runCalls (dummyFetch s) rest

/-- Invariant carried through any call sequence on a fresh instance:
the instance has sent at most one `runtest_need_work` event and dequeued
at most one value, and it has sent and dequeued nothing while still
unresolved and unblocked. -/
def dummyInv (s : DummySt) : Prop :=
  s.events.count Event.runtest_need_work ≤ 1 ∧ s.taken.length ≤ 1 ∧
  (s.nextitem_index = none → s.blocked = false →
    s.events.count Event.runtest_need_work = 0 ∧ s.taken.length = 0)

theorem dummyFetch_preserves_inv (s : DummySt) (h : dummyInv s) :
    dummyInv (dummyFetch s) := by
  obtain ⟨h1, h2, h3⟩ := h
  by_cases hb : s.blocked
  · simpa [dummyFetch, hb] using ⟨h1, h2, h3⟩
  · cases hn : s.nextitem_index with
    | some v => simpa [dummyFetch, hb, hn] using ⟨h1, h2, h3⟩
    | none =>
      obtain ⟨hc0, ht0⟩ := h3 hn (by simpa using hb)
      cases hs : s.pendingStream with
      | nil =>
        refine ⟨?_, ?_, ?_⟩ <;>
          simp [dummyFetch, hb, hn, hs, List.count_append, hc0, ht0]
      | cons v rest =>
        cases v with
        | shutdown =>
          refine ⟨?_, ?_, ?_⟩ <;>
            simp [dummyFetch, hb, hn, hs, List.count_append, hc0, ht0]
        | idx i =>
          refine ⟨?_, ?_, ?_⟩ <;>
            simp [dummyFetch, hb, hn, hs, List.count_append, hc0, ht0]

theorem runCalls_inv (calls : List Call) :
    ∀ (s : DummySt), dummyInv s → dummyInv (runCalls s calls) := by
  induction calls with
  | nil => intro s h; exact h
  | cons c rest ih =>
    intro s h
    exact ih (dummyFetch s) (dummyFetch_preserves_inv s h)

/-- Claim C4: a `DummyNext` resolved once stays resolved — `_fetch` is the
identity on a resolved instance, so every later call returns the cached
`(item, index)` pair with no further event emission or dequeue — and over
any sequence of `listchain` / `_next_index` calls a fresh instance sends
at most one `runtest_need_work` event and performs at most one dequeue. -/
theorem dummyNext_at_most_one_fetch :
    (∀ s : DummySt, s.nextitem_index.isSome = true → dummyFetch s = s) ∧
    (∀ (stream : List QVal) (calls : List Call),
      (runCalls (freshDummy stream) calls).events.count
        Event.runtest_need_work ≤ 1 ∧
      (runCalls (freshDummy stream) calls).taken.length ≤ 1) := by
  constructor
  · intro s hs
    cases hn : s.nextitem_index with
    | none => rw [hn] at hs; simp at hs
    | some v =>
      by_cases hb : s.blocked <;> simp [dummyFetch, hb, hn]
  · intro stream calls
    have h := runCalls_inv calls (freshDummy stream)
      ⟨by simp [freshDummy], by simp [freshDummy], fun _ _ => ⟨rfl, rfl⟩⟩
    exact ⟨h.1, h.2.1⟩

/-- Witness for claim C4: a resolved instance is untouched by `_fetch`, and
a fresh instance queried twice sends one `runtest_need_work` in total. -/
theorem dummyNext_at_most_one_fetch_witness :
    dummyFetch
      { real_next := some 2, nextitem_index := some (QVal.idx 2),
        pendingStream := [], events := [Event.runtest_need_work],
        taken := [QVal.idx 2], blocked := false } =
      { real_next := some 2, nextitem_index := some (QVal.idx 2),
        pendingStream := [], events := [Event.runtest_need_work],
        taken := [QVal.idx 2], blocked := false } ∧
    (runCalls (freshDummy [QVal.idx 5])
        [Call.listchain, Call.nextIndex]).events.count
      Event.runtest_need_work ≤ 1 :=
  ⟨dummyNext_at_most_one_fetch.1 _ rfl,
   (dummyNext_at_most_one_fetch.2 [QVal.idx 5]
     [Call.listchain, Call.nextIndex]).1⟩

/-! ## Warning serialization (`serialize_warning_message`)

The transport encoder `execnet.gateway_base.dumps` applied to a Python
value either succeeds, raises its own `DumpError` ("cannot encode"), or
raises some other exception.  The function builds a mapping with the
message fields, the category fields, and — iterating the dynamically
enumerated `warning_message._WARNING_DETAILS`, skipping `message` and
`category` — one entry per auxiliary field: the value itself if `dumps`
succeeds, its `repr` text if `dumps` raises `DumpError`; any other
exception propagates.  For `message.args` the `DumpError` fallback is
`None` instead of the text. -/

/-- The behaviour of `dumps` on a value. -/
inductive DumpsOutcome
  | ok
  | dumpError
  | raisesOther (e : String)
deriving DecidableEq, Repr

/-- An opaque Python value as the serializer observes it: how `dumps`
behaves on it and its `repr` text. -/
structure WVal where
  dumps : DumpsOutcome
  reprStr : String
deriving DecidableEq, Repr

/-- An entry of the serialized mapping for an auxiliary warning field. -/
inductive FieldVal
  | verbatim (v : WVal)
  | textual (s : String)
deriving DecidableEq, Repr

/-- The message of a captured warning: either a `Warning` instance (with
its class module and name, its `str()` rendering and its `args`), or a
plain non-`Warning` value (already a string). -/
inductive WMessage
  | warningInst (module className strRendering : String) (args : WVal)
  | plain (s : String)
deriving DecidableEq, Repr

/-- A captured warning as `pytest_warning_recorded` delivers it: the
message, the optional category (module and class name) and the
`_WARNING_DETAILS` attribute list as `(name, value)` pairs. -/
structure WarningMessageRec where
  message : WMessage
  category : Option (String × String)
  details : List (String × WVal)
deriving DecidableEq, Repr

/-- The serialized warning mapping. -/
structure SerializedWarning where
  message_str : String
  message_module : Option String
  message_class_name : Option String
  message_args : Option WVal
  category_module : Option String
  category_class_name : Option String
  extras : List (String × FieldVal)
deriving DecidableEq, Repr

/-- The `_WARNING_DETAILS` loop of `serialize_warning_message`: skip the
`message` and `category` attributes, store each remaining field verbatim
when `dumps` succeeds, as its `repr` text when `dumps` raises `DumpError`,
and propagate any other exception. -/
def serializeDetails : List (String × WVal) →
    Except String (List (String × FieldVal))
  | [] => Except.ok []
  | (name, v) :: rest =>
    if name = "message" ∨ name = "category" then serializeDetails rest
    else
      match v.dumps with
      | DumpsOutcome.ok =>
        (serializeDetails rest).map (fun r => (name, FieldVal.verbatim v) :: r)
      | DumpsOutcome.dumpError =>
        (serializeDetails rest).map
          (fun r => (name, FieldVal.textual v.reprStr) :: r)
      | DumpsOutcome.raisesOther e => Except.error e

/-- The message part of `serialize_warning_message`: for a `Warning`
instance record module, class name, `str()` rendering and — attempting
`dumps(message.args)` and substituting `None` on a `DumpError` —
the args; for a non-`Warning` message use it as the rendering with null
module, class name and args.  A non-`DumpError` failure propagates. -/
def messageHead (m : WMessage) :
    Except String (String × Option String × Option String × Option WVal) :=
  match m with
  | WMessage.warningInst mo c s args =>
    match args.dumps with
    | DumpsOutcome.ok => Except.ok (s, some mo, some c, some args)
    | DumpsOutcome.dumpError =>
      Except.ok (s, some mo, some c, (none : Option WVal))
    | DumpsOutcome.raisesOther e => Except.error e
  | WMessage.plain s =>
    Except.ok (s, (none : Option String), (none : Option String),
      (none : Option WVal))

/-- Embedding of `serialize_warning_message`. -/
def serialize_warning_message (w : WarningMessageRec) :
    Except String SerializedWarning :=
  match messageHead w.message with
  | Except.error e => Except.error e
  | Except.ok head =>
    let cat :=
      match w.category with
      | some (m, c) => (some m, some c)
      | none => ((none : Option String), (none : Option String))
    match serializeDetails w.details with
    | Except.error e => Except.error e
    | Except.ok extras =>
      Except.ok
        { message_str := head.1, message_module := head.2.1,
          message_class_name := head.2.2.1, message_args := head.2.2.2,
          category_module := cat.1, category_class_name := cat.2,
          extras := extras }

/-- What the spec requires for one auxiliary field whose `dumps` does not
raise a foreign exception: the value verbatim on success, its text on a
`DumpError`. -/
def detailEntry (v : WVal) : FieldVal :=
  match v.dumps with
  | DumpsOutcome.ok => FieldVal.verbatim v
  | _ => FieldVal.textual v.reprStr

/-- Whether a details entry survives the `message` / `category` skip. -/
def isAuxField (p : String × WVal) : Bool :=
  !(p.1 = "message" || p.1 = "category")

theorem exceptMap_ok {ε α β : Type} (f : α → β) (r : α) :
    (Except.ok r : Except ε α).map f = Except.ok (f r) := rfl

theorem exceptMap_error {ε α β : Type} (f : α → β) (e : ε) :
    (Except.error e : Except ε α).map f = Except.error e := rfl

theorem serializeDetails_ok_characterization :
    ∀ (details : List (String × WVal)) (res : List (String × FieldVal)),
      serializeDetails details = Except.ok res →
      res = (details.filter isAuxField).map (fun p => (p.1, detailEntry p.2)) := by
  intro details
  induction details with
  | nil =>
    intro res h
    simp only [serializeDetails, Except.ok.injEq] at h
    subst h
    rfl
  | cons p rest ih =>
    intro res h
    obtain ⟨name, v⟩ := p
    by_cases hskip : name = "message" ∨ name = "category"
    · rw [serializeDetails, if_pos hskip] at h
      have hf : isAuxField (name, v) = false := by
        rcases hskip with h1 | h1 <;> simp [isAuxField, h1]
      simp only [List.filter_cons, hf, Bool.false_eq_true, if_false]
      exact ih res h
    · have haux : isAuxField (name, v) = true := by
        simp only [isAuxField, Bool.not_eq_true']
        rcases not_or.mp hskip with ⟨h1, h2⟩
        simp [h1, h2]
      rw [serializeDetails, if_neg hskip] at h
      simp only [List.filter_cons, haux, if_true, List.map_cons]
      cases hd : v.dumps with
      | ok =>
        simp only [hd] at h
        cases hr : serializeDetails rest with
        | error e => rw [hr, exceptMap_error] at h; exact Except.noConfusion h
        | ok r =>
          rw [hr, exceptMap_ok] at h
          injection h with h
          subst h
          rw [ih r hr]
          simp [detailEntry, hd]
      | dumpError =>
        simp only [hd] at h
        cases hr : serializeDetails rest with
        | error e => rw [hr, exceptMap_error] at h; exact Except.noConfusion h
        | ok r =>
          rw [hr, exceptMap_ok] at h
          injection h with h
          subst h
          rw [ih r hr]
          simp [detailEntry, hd]
      | raisesOther e =>
        simp only [hd] at h
        exact Except.noConfusion h

theorem serializeDetails_ok_of_no_other :
    ∀ details : List (String × WVal),
      (∀ p ∈ details, isAuxField p = true →
        ∀ e, p.2.dumps ≠ DumpsOutcome.raisesOther e) →
      ∃ res, serializeDetails details = Except.ok res := by
  intro details
  induction details with
  | nil => intro _; exact ⟨[], rfl⟩
  | cons p rest ih =>
    intro h
    obtain ⟨res, hres⟩ := ih (fun q hq => h q (List.mem_cons_of_mem p hq))
    obtain ⟨name, v⟩ := p
    by_cases hskip : name = "message" ∨ name = "category"
    · exact ⟨res, by rw [serializeDetails, if_pos hskip]; exact hres⟩
    · have haux : isAuxField (name, v) = true := by
        simp only [isAuxField, Bool.not_eq_true']
        rcases not_or.mp hskip with ⟨h1, h2⟩
        simp [h1, h2]
      cases hd : v.dumps with
      | ok =>
        refine ⟨(name, FieldVal.verbatim v) :: res, ?_⟩
        rw [serializeDetails, if_neg hskip]
        simp only [hd, hres, exceptMap_ok]
      | dumpError =>
        refine ⟨(name, FieldVal.textual v.reprStr) :: res, ?_⟩
        rw [serializeDetails, if_neg hskip]
        simp only [hd, hres, exceptMap_ok]
      | raisesOther e =>
        exact absurd hd (h (name, v) (List.mem_cons_self _ _) haux e)

theorem serializeDetails_error_of_other :
    ∀ details : List (String × WVal),
      (∃ p ∈ details, isAuxField p = true ∧
        ∃ e, p.2.dumps = DumpsOutcome.raisesOther e) →
      ∃ e, serializeDetails details = Except.error e := by
  intro details
  induction details with
  | nil => rintro ⟨p, hp, _⟩; cases hp
  | cons q rest ih =>
    rintro ⟨p, hp, haux, e, hd⟩
    obtain ⟨name, v⟩ := q
    by_cases hskip : name = "message" ∨ name = "category"
    · have hp' : p ∈ rest := by
        rcases List.mem_cons.mp hp with h1 | h1
        · exfalso
          subst h1
          rcases hskip with h2 | h2 <;> simp [isAuxField, h2] at haux
        · exact h1
      obtain ⟨e', he'⟩ := ih ⟨p, hp', haux, e, hd⟩
      exact ⟨e', by rw [serializeDetails, if_pos hskip]; exact he'⟩
    · cases hdv : v.dumps with
      | ok =>
        have hp' : p ∈ rest := by
          rcases List.mem_cons.mp hp with h1 | h1
          · exfalso; subst h1; rw [hdv] at hd; cases hd
          · exact h1
        obtain ⟨e', he'⟩ := ih ⟨p, hp', haux, e, hd⟩
        refine ⟨e', ?_⟩
        rw [serializeDetails, if_neg hskip]
        simp only [hdv, he', exceptMap_error]
      | dumpError =>
        have hp' : p ∈ rest := by
          rcases List.mem_cons.mp hp with h1 | h1
          · exfalso; subst h1; rw [hdv] at hd; cases hd
          · exact h1
        obtain ⟨e', he'⟩ := ih ⟨p, hp', haux, e, hd⟩
        refine ⟨e', ?_⟩
        rw [serializeDetails, if_neg hskip]
        simp only [hdv, he', exceptMap_error]
      | raisesOther e'' =>
        refine ⟨e'', ?_⟩
        rw [serializeDetails, if_neg hskip]
        simp only [hdv]

/-- Claim C5: the serialized mapping holds one entry per auxiliary field
(every `_WARNING_DETAILS` name other than `message` and `category`), in
order, each verbatim when the transport encoding succeeds and as its
textual representation when the encoder raises its "cannot encode"
failure; no field is omitted; only that failure class is caught, and any
other failure propagates out of the serializer. -/
theorem warning_details_spec (details : List (String × WVal)) :
    (∀ res, serializeDetails details = Except.ok res →
      res = (details.filter isAuxField).map (fun p => (p.1, detailEntry p.2))) ∧
    ((∀ p ∈ details, isAuxField p = true →
        ∀ e, p.2.dumps ≠ DumpsOutcome.raisesOther e) →
      ∃ res, serializeDetails details = Except.ok res) ∧
    ((∃ p ∈ details, isAuxField p = true ∧
        ∃ e, p.2.dumps = DumpsOutcome.raisesOther e) →
      ∃ e, serializeDetails details = Except.error e) :=
  ⟨fun res h => serializeDetails_ok_characterization details res h,
   serializeDetails_ok_of_no_other details,
   serializeDetails_error_of_other details⟩

/-- Witness for claim C5 on a concrete field list: one serializable field
kept verbatim, one unserializable field degraded to its text, the
`message` entry skipped. -/
theorem warning_details_spec_witness :
    serializeDetails
        [("message", ⟨DumpsOutcome.raisesOther "boom", "m"⟩),
         ("filename", ⟨DumpsOutcome.ok, "f"⟩),
         ("source", ⟨DumpsOutcome.dumpError, "sourcerepr"⟩)] =
      Except.ok
        [("filename", FieldVal.verbatim ⟨DumpsOutcome.ok, "f"⟩),
         ("source", FieldVal.textual "sourcerepr")] ∧
    ([("filename", FieldVal.verbatim (⟨DumpsOutcome.ok, "f"⟩ : WVal)),
      ("source", FieldVal.textual "sourcerepr")] =
      (([("message", (⟨DumpsOutcome.raisesOther "boom", "m"⟩ : WVal)),
         ("filename", ⟨DumpsOutcome.ok, "f"⟩),
         ("source", ⟨DumpsOutcome.dumpError, "sourcerepr"⟩)].filter
          isAuxField).map (fun p => (p.1, detailEntry p.2)))) :=
  ⟨rfl,
   (warning_details_spec
      [("message", ⟨DumpsOutcome.raisesOther "boom", "m"⟩),
       ("filename", ⟨DumpsOutcome.ok, "f"⟩),
       ("source", ⟨DumpsOutcome.dumpError, "sourcerepr"⟩)]).1 _ rfl⟩

/-- Claim C7: in any successfully serialized warning mapping,
`message_args` equals the message's constructor arguments when those are
independently serializable by the transport encoder, and is null when
encoding them raises the encoder's "cannot encode" failure; in either
case `message_str` is present and is the textual rendering of the
message (for a non-`Warning` message, the message itself, with null
args). -/
theorem warning_message_args_spec (w : WarningMessageRec)
    (res : SerializedWarning)
    (h : serialize_warning_message w = Except.ok res) :
    (∀ m c s args, w.message = WMessage.warningInst m c s args →
      res.message_str = s ∧ res.message_module = some m ∧
      res.message_class_name = some c ∧
      (args.dumps = DumpsOutcome.ok → res.message_args = some args) ∧
      (args.dumps = DumpsOutcome.dumpError → res.message_args = none)) ∧
    (∀ s, w.message = WMessage.plain s →
      res.message_str = s ∧ res.message_args = none) := by
  rw [serialize_warning_message] at h
  cases hh : messageHead w.message with
  | error e => rw [hh] at h; exact Except.noConfusion h
  | ok head =>
    rw [hh] at h
    cases hx : serializeDetails w.details with
    | error e => rw [hx] at h; exact Except.noConfusion h
    | ok extras =>
      rw [hx] at h
      injection h with h
      subst h
      constructor
      · intro m c s args hm
        rw [hm] at hh
        cases hd : args.dumps with
        | ok =>
          rw [messageHead] at hh
          simp only [hd] at hh
          injection hh with hh
          subst hh
          refine ⟨rfl, rfl, rfl, fun _ => rfl, fun hc => absurd hc (by decide)⟩
        | dumpError =>
          rw [messageHead] at hh
          simp only [hd] at hh
          injection hh with hh
          subst hh
          refine ⟨rfl, rfl, rfl, fun hc => absurd hc (by decide), fun _ => rfl⟩
        | raisesOther e =>
          rw [messageHead] at hh
          simp only [hd] at hh
          exact Except.noConfusion hh
      · intro s hm
        rw [hm, messageHead] at hh
        injection hh with hh
        subst hh
        exact ⟨rfl, rfl⟩

/-- A concrete captured warning: a `UserWarning` message whose args
`(1, "x")` are serializable, with one serializable auxiliary field. -/
def wExample : WarningMessageRec :=
  ⟨WMessage.warningInst "warnings" "UserWarning" "w text"
      ⟨DumpsOutcome.ok, "(1, x)"⟩,
    some ("builtins", "UserWarning"),
    [("filename", ⟨DumpsOutcome.ok, "f"⟩)]⟩

/-- The serialization of `wExample`. -/
def wExampleResult : SerializedWarning :=
  ⟨"w text", some "warnings", some "UserWarning",
    some ⟨DumpsOutcome.ok, "(1, x)"⟩, some "builtins", some "UserWarning",
    [("filename", FieldVal.verbatim ⟨DumpsOutcome.ok, "f"⟩)]⟩

/-- Witness for claim C7: serializing `wExample` renders the message text
and keeps the serializable args verbatim. -/
theorem warning_message_args_spec_witness :
    wExampleResult.message_str = "w text" ∧
    wExampleResult.message_args = some ⟨DumpsOutcome.ok, "(1, x)"⟩ :=
  have h := warning_message_args_spec wExample wExampleResult rfl
  have h1 := h.1 "warnings" "UserWarning" "w text"
    ⟨DumpsOutcome.ok, "(1, x)"⟩ rfl
  ⟨h1.1, h1.2.2.2.1 rfl⟩

/-! ## Log relay (`RemoteMessageHandler.emit`)

`emit` wraps its body in `try: ... except Exception: self.handleError(record)`.
Python's `except Exception` catches `Exception` subclasses only; a
`BaseException`-level failure (`KeyboardInterrupt`, `SystemExit`, ...)
raised while formatting, pickling or sending propagates past `emit`. -/

/-- Where a Python exception class sits in the hierarchy: a subclass of
`Exception`, or a `BaseException` that is not an `Exception`. -/
inductive ExnLevel
  | exce
  | base
deriving DecidableEq, Repr

/-- A raised Python exception: its level and its class name. -/
structure PyExn where
  level : ExnLevel
  name : String
deriving DecidableEq, Repr

/-- A log record as the handler sees it. -/
structure LogRecord where
  msg : String
  message : String
  args : Option String
  exc_info : Option String
  exc_text : Option String
deriving DecidableEq, Repr

/-- The snapshot built by `emit`: the copied record with message pre-set to
the formatted text and the non-transportable fields cleared. -/
def snapshotRecord (r : LogRecord) (formatted : String) : LogRecord :=
  { r with message := formatted, msg := formatted, args := none,
           exc_info := none, exc_text := none }

/-- The behaviour of the environment during one `emit` call: the result of
`self.format(record)`, of `pickle.dumps` on the snapshot, and of
`self.queue.send_log` on the pickled bytes. -/
structure EmitEnv where
  formatResult : Except PyExn String
  pickleResult : LogRecord → Except PyExn String
  sendResult : String → Except PyExn Unit
deriving Nonempty

/-- The body of `emit`'s `try` block: format, snapshot, pickle, send,
propagating the first failure. -/
def emitAttempt (env : EmitEnv) (record : LogRecord) : Except PyExn String :=
  match env.formatResult with
  | Except.error e => Except.error e
  | Except.ok msg =>
    match env.pickleResult (snapshotRecord record msg) with
    | Except.error e => Except.error e
    | Except.ok x =>
      match env.sendResult x with
      | Except.error e => Except.error e
      | Except.ok _ => Except.ok x

/-- How an `emit` call ends when it does not raise: the pickled record was
sent, or a caught failure was routed to `self.handleError` (the logging
subsystem's own error-reporting path). -/
inductive EmitResult
  | sent (payload : String)
  | errorHandled
deriving DecidableEq, Repr

/-- Embedding of `RemoteMessageHandler.emit`: run the `try` body; a
failure whose class is an `Exception` subclass is caught and routed to
`handleError`, any other failure propagates to the caller. -/
def emit (env : EmitEnv) (record : LogRecord) : Except PyExn EmitResult :=
  match emitAttempt env record with
  | Except.ok x => Except.ok (EmitResult.sent x)
  | Except.error e =>
    if e.level = ExnLevel.exce then Except.ok EmitResult.errorHandled
    else Except.error e

/-- A record fixture for the counterexample. -/
def recordExample : LogRecord :=
  ⟨"fmt %s", "fmt x", some "x", none, none⟩

/-- Counterexample to claim C6 as stated: a `BaseException`-level failure
(`KeyboardInterrupt`) raised while sending the record is not caught by
`except Exception`, so `emit` raises past its caller instead of invoking
the logging subsystem's error path. -/
theorem emit_counterexample :
    emit
      { formatResult := Except.ok "fmt x",
        pickleResult := fun _ => Except.ok "pickled",
        sendResult := fun _ =>
          Except.error ⟨ExnLevel.base, "KeyboardInterrupt"⟩ }
      recordExample =
      Except.error ⟨ExnLevel.base, "KeyboardInterrupt"⟩ := rfl

/-- Claim C6 amended: for every failure that is an `Exception` subclass —
snapshot, serialization or channel-send failure alike — `emit` never
raises past its caller and routes the failure to the logging subsystem's
own error-reporting path; `BaseException`-level failures propagate. -/
theorem emit_never_raises (env : EmitEnv) (record : LogRecord)
    (hf : ∀ e : PyExn,
      (env.formatResult = Except.error e ∨
       (∃ r, env.pickleResult r = Except.error e) ∨
       (∃ x, env.sendResult x = Except.error e)) →
      e.level = ExnLevel.exce) :
    (∀ e : PyExn, emit env record ≠ Except.error e) ∧
    (∀ e, emitAttempt env record = Except.error e →
      emit env record = Except.ok EmitResult.errorHandled) ∧
    (∀ x, emitAttempt env record = Except.ok x →
      emit env record = Except.ok (EmitResult.sent x)) := by
  have hlevel : ∀ e, emitAttempt env record = Except.error e →
      e.level = ExnLevel.exce := by
    intro e ha
    rw [emitAttempt] at ha
    cases h1 : env.formatResult with
    | error e1 =>
      simp only [h1] at ha
      injection ha with ha
      subst ha
      exact hf _ (Or.inl h1)
    | ok msg =>
      simp only [h1] at ha
      cases h2 : env.pickleResult (snapshotRecord record msg) with
      | error e2 =>
        simp only [h2] at ha
        injection ha with ha
        subst ha
        exact hf _ (Or.inr (Or.inl ⟨_, h2⟩))
      | ok x =>
        simp only [h2] at ha
        cases h3 : env.sendResult x with
        | error e3 =>
          simp only [h3] at ha
          injection ha with ha
          subst ha
          exact hf _ (Or.inr (Or.inr ⟨_, h3⟩))
        | ok u => simp only [h3] at ha; exact Except.noConfusion ha
  refine ⟨?_, ?_, ?_⟩
  · intro e
    cases ha : emitAttempt env record with
    | ok x => simp [emit, ha]
    | error e' => simp [emit, ha, hlevel e' ha]
  · intro e ha
    simp [emit, ha, hlevel e ha]
  · intro x ha
    simp [emit, ha]

/-- Witness for claim C6 (amended) at a concrete environment whose pickle
step raises an `Exception`-level `DumpError`-style failure. -/
theorem emit_never_raises_witness :
    (∀ e : PyExn,
      emit
        { formatResult := Except.ok "fmt x",
          pickleResult := fun _ =>
            Except.error ⟨ExnLevel.exce, "PicklingError"⟩,
          sendResult := fun _ => Except.ok () }
        recordExample ≠ Except.error e) ∧
    (∀ e, emitAttempt
        { formatResult := Except.ok "fmt x",
          pickleResult := fun _ =>
            Except.error ⟨ExnLevel.exce, "PicklingError"⟩,
          sendResult := fun _ => Except.ok () }
        recordExample = Except.error e →
      emit
        { formatResult := Except.ok "fmt x",
          pickleResult := fun _ =>
            Except.error ⟨ExnLevel.exce, "PicklingError"⟩,
          sendResult := fun _ => Except.ok () }
        recordExample = Except.ok EmitResult.errorHandled) ∧
    (∀ x, emitAttempt
        { formatResult := Except.ok "fmt x",
          pickleResult := fun _ =>
            Except.error ⟨ExnLevel.exce, "PicklingError"⟩,
          sendResult := fun _ => Except.ok () }
        recordExample = Except.ok x →
      emit
        { formatResult := Except.ok "fmt x",
          pickleResult := fun _ =>
            Except.error ⟨ExnLevel.exce, "PicklingError"⟩,
          sendResult := fun _ => Except.ok () }
        recordExample = Except.ok (EmitResult.sent x)) :=
  emit_never_raises
    { formatResult := Except.ok "fmt x",
      pickleResult := fun _ => Except.error ⟨ExnLevel.exce, "PicklingError"⟩,
      sendResult := fun _ => Except.ok () }
    recordExample
    (by
      rintro e (h | ⟨r, h⟩ | ⟨x, h⟩)
      · exact Except.noConfusion h
      · injection h with h; rw [← h]
      · exact Except.noConfusion h)

/-! ## Per-item report relay (`pytest_runtest_logreport`)

The hook serializes the report, augments the mapping with
`item_index`, `worker_id` and `testrun_uid`, asserts that the report's
`nodeid` equals the nodeid of `session.items[item_index]`, and sends the
`testreport` event.  The item lookup raises `IndexError` on an invalid
current index, and the `assert` raises `AssertionError` before any event
is sent when the nodeids differ. -/

/-- Python dict assignment `d[k] = v`: replace the value at an existing
key in place, otherwise append the new key at the end. -/
def dictSet (d : List (String × PVal)) (k : String) (v : PVal) :
    List (String × PVal) :=
  if d.any (fun p => p.1 = k) then
    d.map (fun p => if p.1 = k then (k, v) else p)
  else d ++ [(k, v)]

/-- Dict lookup `d[k]`: the value at the first matching key. -/
def dictLookup (d : List (String × PVal)) (k : String) : Option PVal :=
  match d with
  | [] => none
  | p :: rest => if p.1 = k then some p.2 else dictLookup rest k

/-- A serialized test report: its `nodeid` and the serializable mapping
produced by `pytest_report_to_serializable`. -/
structure ReportRec where
  nodeid : String
  data : List (String × PVal)
deriving DecidableEq, Repr

/-- A collected session item: only its `nodeid` matters here. -/
structure SessionItem where
  nodeid : String
deriving DecidableEq, Repr

/-- The interactor state consulted by the report hook. -/
structure WorkerState where
  items : List SessionItem
  item_index : Nat
  workerid : String
  testrunuid : String
deriving DecidableEq, Repr

/-- How the report hook can fail before sending. -/
inductive LogreportError
  | indexError
  | assertionError
deriving DecidableEq, Repr

/-- Embedding of `WorkerInteractor.pytest_runtest_logreport`: augment the
serialized report, check the asserted nodeid invariant against
`session.items[item_index]`, and send the `testreport` event. -/
def pytest_runtest_logreport (st : WorkerState) (report : ReportRec) :
    Except LogreportError Event :=
  let data :=
    dictSet
      (dictSet (dictSet report.data "item_index" (PVal.pnat st.item_index))
        "worker_id" (PVal.pstr st.workerid))
      "testrun_uid" (PVal.pstr st.testrunuid)
  match st.items.get? st.item_index with
  | none => Except.error LogreportError.indexError
  | some it =>
    if it.nodeid = report.nodeid then Except.ok (Event.testreport data)
    else Except.error LogreportError.assertionError

theorem dictLookup_dictSet_same (d : List (String × PVal)) (k : String)
    (v : PVal) : dictLookup (dictSet d k v) k = some v := by
  rw [dictSet]
  by_cases h : d.any (fun p => p.1 = k) = true
  · rw [if_pos h]
    rw [List.any_eq_true] at h
    obtain ⟨p, hp, hpk⟩ := h
    induction d with
    | nil => cases hp
    | cons q rest ih =>
      rcases List.mem_cons.mp hp with h1 | h1
      · subst h1
        simp only [decide_eq_true_eq] at hpk
        simp [dictLookup, hpk]
      · by_cases hq : q.1 = k
        · simp [dictLookup, hq]
        · simp only [List.map_cons, if_neg hq]
          rw [dictLookup, if_neg hq]
          exact ih h1
  · rw [if_neg h]
    simp only [List.any_eq_true, decide_eq_true_eq] at h
    push_neg at h
    induction d with
    | nil => simp [dictLookup]
    | cons q rest ih =>
      have hq : ¬(q.1 = k) := h q (List.mem_cons_self _ _)
      rw [List.cons_append, dictLookup, if_neg hq]
      exact ih (fun p hp => h p (List.mem_cons_of_mem _ hp))

theorem dictLookup_map_set (d : List (String × PVal)) (k k' : String)
    (v : PVal) (hne : k ≠ k') :
    dictLookup (d.map (fun p => if p.1 = k' then (k', v) else p)) k =
      dictLookup d k := by
  induction d with
  | nil => rfl
  | cons q rest ih =>
    by_cases hq : q.1 = k'
    · have hqk : ¬(q.1 = k) := by rw [hq]; exact fun hc => hne hc.symm
      simp only [List.map_cons, if_pos hq]
      rw [dictLookup, dictLookup, if_neg hqk,
        if_neg (fun hc : k' = k => hne hc.symm)]
      exact ih
    · simp only [List.map_cons, if_neg hq]
      rw [dictLookup, dictLookup]
      by_cases hqk : q.1 = k
      · rw [if_pos hqk, if_pos hqk]
      · rw [if_neg hqk, if_neg hqk]
        exact ih

theorem dictLookup_append_single (d : List (String × PVal)) (k k' : String)
    (v : PVal) (hne : k ≠ k') :
    dictLookup (d ++ [(k', v)]) k = dictLookup d k := by
  induction d with
  | nil =>
    simp [dictLookup, Ne.symm hne]
  | cons q rest ih =>
    rw [List.cons_append, dictLookup, dictLookup]
    by_cases hqk : q.1 = k
    · rw [if_pos hqk, if_pos hqk]
    · rw [if_neg hqk, if_neg hqk]
      exact ih

theorem dictLookup_dictSet_other (d : List (String × PVal)) (k k' : String)
    (v : PVal) (hne : k ≠ k') :
    dictLookup (dictSet d k' v) k = dictLookup d k := by
  rw [dictSet]
  by_cases h : d.any (fun p => p.1 = k') = true
  · rw [if_pos h]
    exact dictLookup_map_set d k k' v hne
  · rw [if_neg h]
    exact dictLookup_append_single d k k' v hne

/-- Claim C10: when the current item index is valid and the report's
nodeid matches the session item at that index (the "normal per-item
report" situation), the hook sends one `testreport` event whose data is
the serialized report augmented with `item_index`, `worker_id` and
`testrun_uid`, and the asserted nodeid invariant holds (no assertion
failure). -/
theorem logreport_spec (st : WorkerState) (report : ReportRec)
    (it : SessionItem) (hidx : st.items.get? st.item_index = some it)
    (hnode : it.nodeid = report.nodeid) :
    pytest_runtest_logreport st report =
      Except.ok (Event.testreport
        (dictSet
          (dictSet (dictSet report.data "item_index" (PVal.pnat st.item_index))
            "worker_id" (PVal.pstr st.workerid))
          "testrun_uid" (PVal.pstr st.testrunuid))) ∧
    (∀ data, pytest_runtest_logreport st report =
        Except.ok (Event.testreport data) →
      dictLookup data "item_index" = some (PVal.pnat st.item_index) ∧
      dictLookup data "worker_id" = some (PVal.pstr st.workerid) ∧
      dictLookup data "testrun_uid" = some (PVal.pstr st.testrunuid)) := by
  have hok : pytest_runtest_logreport st report =
      Except.ok (Event.testreport
        (dictSet
          (dictSet (dictSet report.data "item_index" (PVal.pnat st.item_index))
            "worker_id" (PVal.pstr st.workerid))
          "testrun_uid" (PVal.pstr st.testrunuid))) := by
    rw [pytest_runtest_logreport]
    simp only [hidx, if_pos hnode]
  refine ⟨hok, fun data hdata => ?_⟩
  rw [hok] at hdata
  injection hdata with hdata
  injection hdata with hdata
  subst hdata
  refine ⟨?_, ?_, ?_⟩
  · rw [dictLookup_dictSet_other _ _ _ _ (by decide),
      dictLookup_dictSet_other _ _ _ _ (by decide),
      dictLookup_dictSet_same]
  · rw [dictLookup_dictSet_other _ _ _ _ (by decide),
      dictLookup_dictSet_same]
  · rw [dictLookup_dictSet_same]

/-- Witness for claim C10 at a concrete state and report. -/
theorem logreport_spec_witness :
    pytest_runtest_logreport
        ⟨[⟨"test_a.py::test_one"⟩, ⟨"test_a.py::test_two"⟩], 1, "gw0", "uid1"⟩
        ⟨"test_a.py::test_two", [("outcome", PVal.pstr "passed")]⟩ =
      Except.ok (Event.testreport
        (dictSet
          (dictSet
            (dictSet [("outcome", PVal.pstr "passed")] "item_index"
              (PVal.pnat 1))
            "worker_id" (PVal.pstr "gw0"))
          "testrun_uid" (PVal.pstr "uid1"))) ∧
    (∀ data,
      pytest_runtest_logreport
          ⟨[⟨"test_a.py::test_one"⟩, ⟨"test_a.py::test_two"⟩], 1, "gw0",
            "uid1"⟩
          ⟨"test_a.py::test_two", [("outcome", PVal.pstr "passed")]⟩ =
        Except.ok (Event.testreport data) →
      dictLookup data "item_index" = some (PVal.pnat 1) ∧
      dictLookup data "worker_id" = some (PVal.pstr "gw0") ∧
      dictLookup data "testrun_uid" = some (PVal.pstr "uid1")) :=
  logreport_spec
    ⟨[⟨"test_a.py::test_one"⟩, ⟨"test_a.py::test_two"⟩], 1, "gw0", "uid1"⟩
    ⟨"test_a.py::test_two", [("outcome", PVal.pstr "passed")]⟩
    ⟨"test_a.py::test_two"⟩ rfl rfl

end XdistRemote
